import Mathlib

/-!
Verification development for the MCX gold backtest engine
(`gold_analysis_dashboard/src/components/BacktestPanel.jsx`).

The engine is a pure function of an ordered list of daily observations and a
configuration.  JavaScript numbers are modelled as exact rationals (`ℚ`);
`Math.round` and `Number.toFixed` are modelled by their ECMAScript rounding
rule (round half toward +∞).  ISO `YYYY-MM-DD` date strings are modelled by a
`Date` structure whose lexicographic comparison agrees with the string
comparison the source performs on well-formed zero-padded ISO dates.
-/

/-- Calendar date, standing for an ISO `YYYY-MM-DD` string. -/
structure Date where
  year : ℕ
  month : ℕ
  day : ℕ
deriving DecidableEq, Repr

/-- Lexicographic strict order on dates; agrees with JavaScript string
comparison of well-formed zero-padded ISO date strings. -/
def Date.ltB (a b : Date) : Bool :=
  a.year < b.year ||
    (a.year == b.year && (a.month < b.month ||
      (a.month == b.month && a.day < b.day)))

/-- Lexicographic `≤` on dates (string comparison `<=` of ISO dates). -/
def Date.leB (a b : Date) : Bool :=
  a.ltB b || a == b

/-- ECMAScript `Math.round`: round half toward +∞. -/
def jsRound (x : ℚ) : ℤ := ⌊x + 1/2⌋

/-- ECMAScript `Number.prototype.toFixed n`, viewed as the exact rational the
produced decimal string denotes: round to `n` decimal places, half toward +∞. -/
def jsToFixed (n : ℕ) (x : ℚ) : ℚ :=
  (⌊x * (10:ℚ)^n + 1/2⌋ : ℚ) / (10:ℚ)^n

/-- `const CONTRACT_MULTIPLIER = 100` (BacktestPanel.jsx line 34). -/
def CONTRACT_MULTIPLIER : ℚ := 100

/-- One input record of the analytics feed (`data.json`): one trading day.
`expiry_near_date` is the optional ISO expiry date of the near contract; the
simulation loop in the source never reads it. -/
structure DailyObservation where
  date : Date
  price_near : ℚ
  price_far : ℚ
  expiry_near : String
  expiry_far : String
  expiry_near_date : Option Date := none
  premium : ℚ := 0
deriving DecidableEq, Repr

/-- The `config` state object consumed by `runBacktest`. -/
structure Config where
  startDate : Date
  endDate : Date
  initialLots : ℚ
  initialMarginPercent : ℚ
  transactionCost : ℚ
  compoundingFactor : ℚ
  isCompounding : Bool
  neverCompound : Bool
deriving DecidableEq, Repr

/-- The mutable simulation state threaded through the daily loop. -/
structure SimState where
  currentLots : ℚ
  cash : ℚ
  entryPrice : ℚ
  baselineCapital : ℚ
  peakEquity : ℚ
deriving DecidableEq, Repr

inductive TradeType where
  | Rollover
  | Compounding
deriving DecidableEq, Repr

/-- A record pushed onto `trades`; fields absent in the source object are
`none`. -/
structure Trade where
  date : Date
  type : TradeType
  contracts : String
  sellPrice : Option ℚ := none
  buyPrice : Option ℚ := none
  lots : ℚ
  grossPnL : Option ℚ := none
  cost : Option ℚ := none
  netPnL : Option ℚ := none
  equity : ℚ
  note : Option String := none
deriving DecidableEq, Repr

/-- A record pushed onto `equitySeries`: `equity` is `Math.round(currentEquity)`
and `drawdown` is the value of the string `dd.toFixed(2)`. -/
structure EquityPoint where
  date : Date
  equity : ℤ
  lots : ℚ
  drawdown : ℚ
deriving DecidableEq, Repr

/-- One entry of `calculateYoY`'s output.  The source computes
`const ret = ((end - start) / start) * 100` and pushes `ret.toFixed(1)`;
`retExact` is the intermediate `ret`, `ret` the pushed rounded value. -/
structure YearlyReturn where
  year : ℕ
  retExact : ℚ
  ret : ℚ
deriving DecidableEq, Repr

/-- The `stats` object.  `cagr` (which uses a transcendental fractional power)
is outside the scope of the claims and is not modelled. -/
structure SummaryStats where
  initialCapital : ℚ
  finalCapital : ℤ
  totalReturn : ℚ
  avgAnnualRet : ℚ
  maxDD : ℚ
  maxLots : ℚ
deriving DecidableEq, Repr

/-- Everything a successful `runBacktest` publishes. -/
structure BacktestResults where
  stats : SummaryStats
  equityCurve : List EquityPoint
  drawdownCurve : List (Date × ℚ)
  yearlyReturns : List YearlyReturn
  tradeLog : List Trade
deriving DecidableEq, Repr

/-- The rollover block (source lines 56–82): when a previous day exists and
the near-contract label changed, close at `prev.price_near`, re-open at
`prev.price_far`, realize the P&L into cash and log a `Rollover` trade whose
`equity` snapshot is the updated `cash`. -/
def rolloverStep (cfg : Config) (st : SimState) (prev : Option DailyObservation)
    (today : DailyObservation) : SimState × List Trade :=
  match prev with
  | none => (st, [])
  | some p =>
    if today.expiry_near ≠ p.expiry_near then
      let sellPrice := p.price_near
      let buyPrice := p.price_far
      let rawPnL := (sellPrice - st.entryPrice) * CONTRACT_MULTIPLIER * st.currentLots
      let cost := cfg.transactionCost * st.currentLots
      let netPnL := rawPnL - cost
      let newCash := st.cash + netPnL
      ({ st with cash := newCash, entryPrice := buyPrice },
       [{ date := today.date
          type := TradeType.Rollover
          contracts := p.expiry_near ++ " → " ++ today.expiry_near
          sellPrice := some sellPrice
          buyPrice := some buyPrice
          lots := st.currentLots
          grossPnL := some rawPnL
          cost := some cost
          netPnL := some netPnL
          equity := newCash }])
    else (st, [])

/-- Mark-to-market equity (source lines 84–87). -/
def mtmEquity (st : SimState) (today : DailyObservation) : ℚ :=
  st.cash + (today.price_near - st.entryPrice) * CONTRACT_MULTIPLIER * st.currentLots

/-- The daily compounding check (source lines 89–103), applied to the
mark-to-market equity `eq` of the day. -/
def compoundingStep (cfg : Config) (st : SimState) (eq : ℚ)
    (today : DailyObservation) : SimState × List Trade :=
  if cfg.neverCompound = false ∧ cfg.isCompounding = true ∧
      (cfg.compoundingFactor / 100) * st.baselineCapital ≤ eq - st.baselineCapital then
    let newLots := st.currentLots * 2
    ({ st with currentLots := newLots, baselineCapital := eq },
     [{ date := today.date
        type := TradeType.Compounding
        contracts := "Position Doubled"
        lots := newLots
        equity := eq
        note := some "Profit Target Hit" }])
  else (st, [])

/-- The guarded drawdown formula (source line 107):
`peakEquity > 0 ? ((peakEquity - currentEquity) / peakEquity) * 100 : 0`. -/
def drawdownPercentCalc (peak eq : ℚ) : ℚ :=
  if 0 < peak then (peak - eq) / peak * 100 else 0

/-- One iteration of the daily loop (source lines 52–116): rollover check,
mark-to-market, compounding check, peak/drawdown update, and the emitted
equity point. -/
def simStep (cfg : Config) (st : SimState) (prev : Option DailyObservation)
    (today : DailyObservation) : SimState × List Trade × EquityPoint :=
  let r := rolloverStep cfg st prev today
  let eq := mtmEquity r.1 today
  let c := compoundingStep cfg r.1 eq today
  let peak := if c.1.peakEquity < eq then eq else c.1.peakEquity
  let st3 := { c.1 with peakEquity := peak }
  let dd := drawdownPercentCalc peak eq
  (st3, r.2 ++ c.2,
   { date := today.date
     equity := jsRound eq
     lots := st3.currentLots
     drawdown := jsToFixed 2 dd })

/-- The daily loop over the filtered data, threading the previous observation
and the state; returns the final state, the trade list in push order, and the
equity series. -/
def runAll (cfg : Config) :
    Option DailyObservation → SimState → List DailyObservation →
    SimState × List Trade × List EquityPoint
  | _, st, [] => (st, [], [])
  | prev, st, d :: ds =>
    let r1 := simStep cfg st prev d
    let r2 := runAll cfg (some d) r1.1 ds
    (r2.1, r1.2.1 ++ r2.2.1, r1.2.2 :: r2.2.2)

/-- The date-window filter (source line 31):
`fullData.filter(d => d.date >= config.startDate && d.date <= config.endDate)`. -/
def filteredData (cfg : Config) (fullData : List DailyObservation) :
    List DailyObservation :=
  fullData.filter fun d => cfg.startDate.leB d.date && d.date.leB cfg.endDate

/-- Initial capital (source lines 38–40):
`price_near × CONTRACT_MULTIPLIER × initialLots × (initialMarginPercent / 100)`. -/
def initialCapitalOf (cfg : Config) (d0 : DailyObservation) : ℚ :=
  d0.price_near * CONTRACT_MULTIPLIER * cfg.initialLots *
    (cfg.initialMarginPercent / 100)

/-- `yearsMap[y].start`: the equity of the first point of year `y` in series
order (source line 154). -/
def startOfYear (s : List EquityPoint) (y : ℕ) : ℚ :=
  match s.find? (fun p => p.date.year == y) with
  | some p => (p.equity : ℚ)
  | none => 0

/-- `yearsMap[y].end`: the equity of the last point of year `y` in series
order (source line 155). -/
def endOfYear (s : List EquityPoint) (y : ℕ) : ℚ :=
  match s.reverse.find? (fun p => p.date.year == y) with
  | some p => (p.equity : ℚ)
  | none => 0

/-- Insertion into a sorted list of years. -/
def insertNat (n : ℕ) : List ℕ → List ℕ
  | [] => [n]
  | m :: ms => if n ≤ m then n :: m :: ms else m :: insertNat n ms

/-- `Object.keys(yearsMap).sort()`: ascending sort of the year keys (string
sort coincides with numeric sort on four-digit years). -/
def sortNat (l : List ℕ) : List ℕ := l.foldr insertNat []

/-- The per-year loop of `calculateYoY` (source lines 159–166): `start` is the
prior year's `end` when there is one, else the year's own `start`. -/
def yoyAux (s : List EquityPoint) : Option ℚ → List ℕ → List YearlyReturn
  | _, [] => []
  | prevEnd, y :: ys =>
    let start := prevEnd.getD (startOfYear s y)
    let e := endOfYear s y
    let ret := (e - start) / start * 100
    { year := y, retExact := ret, ret := jsToFixed 1 ret } :: yoyAux s (some e) ys

/-- `calculateYoY` (source lines 150–168). -/
def calculateYoY (s : List EquityPoint) : List YearlyReturn :=
  yoyAux s none (sortNat ((s.map fun p => p.date.year).dedup))

/-- `Math.max(...)` over a list produced by a `map` (nonempty in every use). -/
def maxOf (l : List ℚ) : ℚ :=
  match l with
  | [] => 0
  | x :: xs => xs.foldl max x

/-- Results assembly for a filtered series with at least two observations
(source lines 36–146), starting from the first observation `d0`. -/
def buildResults (cfg : Config) (data : List DailyObservation)
    (d0 : DailyObservation) : BacktestResults :=
  let initialCapital := initialCapitalOf cfg d0
  let st0 : SimState :=
    { currentLots := cfg.initialLots
      cash := initialCapital
      entryPrice := d0.price_near
      baselineCapital := initialCapital
      peakEquity := initialCapital }
  let r := runAll cfg none st0 data
  let equitySeries := r.2.2
  let trades := r.2.1
  let finalEq : ℤ :=
    match equitySeries.getLast? with
    | some p => p.equity
    | none => 0
  let yoy := calculateYoY equitySeries
  { stats :=
      { initialCapital := initialCapital
        finalCapital := finalEq
        totalReturn := ((finalEq : ℚ) - initialCapital) / initialCapital * 100
        avgAnnualRet := (yoy.map fun y => y.ret).sum / (yoy.length : ℚ)
        maxDD := maxOf (equitySeries.map fun p => p.drawdown)
        maxLots := maxOf (equitySeries.map fun p => p.lots) }
    equityCurve := equitySeries
    drawdownCurve := equitySeries.map fun p => (p.date, p.drawdown)
    yearlyReturns := yoy
    tradeLog := trades.reverse }

/-- `runBacktest` (source lines 27–147): empty input or fewer than two
filtered observations produce no output at all. -/
def runBacktest (cfg : Config) (fullData : List DailyObservation) :
    Option BacktestResults :=
  if fullData.isEmpty then none
  else
    match filteredData cfg fullData with
    | d0 :: d1 :: rest => some (buildResults cfg (d0 :: d1 :: rest) d0)
    | _ => none

/-!
Concrete inputs used by scenario theorems, witnesses and counterexamples.
-/

/-- Default-style configuration matching the spec scenario of §8:
`initialLots = 1`, `initialMarginPercent = 10`, `transactionCost = 50`,
`compoundingFactor = 200`, compounding enabled. -/
def specCfg : Config :=
  { startDate := ⟨2020, 1, 1⟩, endDate := ⟨2020, 12, 31⟩
    initialLots := 1, initialMarginPercent := 10, transactionCost := 50
    compoundingFactor := 200, isCompounding := true, neverCompound := false }

def scenarioObs1 : DailyObservation :=
  { date := ⟨2020, 1, 1⟩, price_near := 100, price_far := 101
    expiry_near := "A", expiry_far := "B" }

def scenarioObs2 : DailyObservation :=
  { date := ⟨2020, 1, 2⟩, price_near := 102, price_far := 103
    expiry_near := "A", expiry_far := "B" }

def scenarioObs3 : DailyObservation :=
  { date := ⟨2020, 1, 3⟩, price_near := 102, price_far := 104
    expiry_near := "B", expiry_far := "C" }

/-- The three-day series of the spec's §8 scenario:
`price_near = [100, 102, 102]`, `price_far = [101, 103, 104]`,
`expiry_near = ["A", "A", "B"]`. -/
def scenarioData : List DailyObservation := [scenarioObs1, scenarioObs2, scenarioObs3]

def staleCfg : Config :=
  { startDate := ⟨2014, 1, 1⟩, endDate := ⟨2014, 12, 31⟩
    initialLots := 1, initialMarginPercent := 10, transactionCost := 50
    compoundingFactor := 200, isCompounding := true, neverCompound := false }

/-- A series with a data gap around the February expiry: the near-contract
label changes on 2014-03-07, thirty days after the recorded
`expiry_near_date = 2014-02-05` of the previous contract (the situation
documented in `ROLLOVER_FIX_SUMMARY.md`). -/
def staleData : List DailyObservation :=
  [{ date := ⟨2014, 1, 4⟩, price_near := 100, price_far := 101
     expiry_near := "05Feb2014", expiry_far := "05Apr2014"
     expiry_near_date := some ⟨2014, 2, 5⟩ },
   { date := ⟨2014, 1, 5⟩, price_near := 100, price_far := 101
     expiry_near := "05Feb2014", expiry_far := "05Apr2014"
     expiry_near_date := some ⟨2014, 2, 5⟩ },
   { date := ⟨2014, 3, 7⟩, price_near := 102, price_far := 103
     expiry_near := "05Apr2014", expiry_far := "05Jun2014"
     expiry_near_date := some ⟨2014, 4, 5⟩ }]

def negCfg : Config :=
  { startDate := ⟨2014, 1, 1⟩, endDate := ⟨2015, 12, 31⟩
    initialLots := 1, initialMarginPercent := 10, transactionCost := 50
    compoundingFactor := 200, isCompounding := true, neverCompound := false }

/-- A two-year series whose large price drop drives equity negative:
equities `1000, -5000, -6000`, so the 2015 yearly return divides by the
negative 2014 closing equity. -/
def negData : List DailyObservation :=
  [{ date := ⟨2014, 6, 1⟩, price_near := 100, price_far := 101
     expiry_near := "A", expiry_far := "B" },
   { date := ⟨2014, 6, 2⟩, price_near := 40, price_far := 41
     expiry_near := "A", expiry_far := "B" },
   { date := ⟨2015, 6, 1⟩, price_near := 30, price_far := 31
     expiry_near := "A", expiry_far := "B" }]

/-- Same window restricted to 2014: the day-two equity `-5000` against the
peak `1000` produces a 600% drawdown. -/
def ddCfg : Config :=
  { startDate := ⟨2014, 1, 1⟩, endDate := ⟨2014, 12, 31⟩
    initialLots := 1, initialMarginPercent := 10, transactionCost := 50
    compoundingFactor := 200, isCompounding := true, neverCompound := false }

/-- Configuration with `compoundingFactor = 0`: the threshold
`currentEquity - baseline ≥ 0` is met already on the first day. -/
def zeroCfCfg : Config :=
  { startDate := ⟨2020, 1, 1⟩, endDate := ⟨2020, 12, 31⟩
    initialLots := 1, initialMarginPercent := 10, transactionCost := 50
    compoundingFactor := 0, isCompounding := true, neverCompound := false }

def flatObs1 : DailyObservation :=
  { date := ⟨2020, 1, 1⟩, price_near := 100, price_far := 101
    expiry_near := "A", expiry_far := "B" }

def flatObs2 : DailyObservation :=
  { date := ⟨2020, 1, 2⟩, price_near := 100, price_far := 101
    expiry_near := "A", expiry_far := "B" }

/-- A two-day constant-price series with no label change. -/
def flatData : List DailyObservation := [flatObs1, flatObs2]

/-- The full result record that `runBacktest specCfg flatData` produces. -/
def flatRes : BacktestResults :=
  { stats :=
      { initialCapital := 1000, finalCapital := 1000, totalReturn := 0
        avgAnnualRet := 0, maxDD := 0, maxLots := 1 }
    equityCurve :=
      [{ date := ⟨2020, 1, 1⟩, equity := 1000, lots := 1, drawdown := 0 },
       { date := ⟨2020, 1, 2⟩, equity := 1000, lots := 1, drawdown := 0 }]
    drawdownCurve := [(⟨2020, 1, 1⟩, 0), (⟨2020, 1, 2⟩, 0)]
    yearlyReturns := [{ year := 2020, retExact := 0, ret := 0 }]
    tradeLog := [] }


/-- Relation between consecutive recorded lot sizes: unchanged or exactly
doubled, and non-decreasing. -/
def lotsStepRel (a b : ℚ) : Prop := (b = a ∨ b = 2 * a) ∧ a ≤ b

/-- Compounding a list of yearly returns multiplicatively (the growth factor
of the claim's sequential chaining). -/
def chainFactor (l : List YearlyReturn) : ℚ :=
  (l.map fun y => 1 + y.retExact / 100).prod

/-- The initial simulation state (source lines 36–45). -/
def initState (cfg : Config) (d0 : DailyObservation) : SimState :=
  { currentLots := cfg.initialLots
    cash := initialCapitalOf cfg d0
    entryPrice := d0.price_near
    baselineCapital := initialCapitalOf cfg d0
    peakEquity := initialCapitalOf cfg d0 }

def rollSt : SimState :=
  { currentLots := 1, cash := 1000, entryPrice := 100
    baselineCapital := 1000, peakEquity := 1000 }

def compSt : SimState :=
  { currentLots := 1, cash := 2900, entryPrice := 100
    baselineCapital := 1000, peakEquity := 1000 }

def rollSt9 : SimState :=
  { currentLots := 1, cash := 1000, entryPrice := 100
    baselineCapital := 1000, peakEquity := 1000 }

def rollPrev9 : DailyObservation :=
  { date := ⟨2020, 2, 1⟩, price_near := 200, price_far := 210
    expiry_near := "A", expiry_far := "B" }

def rollToday9 : DailyObservation :=
  { date := ⟨2020, 2, 2⟩, price_near := 220, price_far := 230
    expiry_near := "B", expiry_far := "C" }

/-!
General lemmas about the engine.
-/

theorem Date.ltB_irrefl (a : Date) : a.ltB a = false := by
  simp [Date.ltB]

theorem Date.ne_of_ltB {a b : Date} (h : a.ltB b = true) : b ≠ a := by
  intro he
  subst he
  rw [Date.ltB_irrefl] at h
  exact Bool.false_ne_true h

theorem rolloverStep_currentLots (cfg : Config) (st : SimState)
    (prev : Option DailyObservation) (today : DailyObservation) :
    (rolloverStep cfg st prev today).1.currentLots = st.currentLots := by
  cases prev with
  | none => rfl
  | some p =>
    unfold rolloverStep
    by_cases h : today.expiry_near ≠ p.expiry_near <;> simp [h]

theorem rolloverStep_baselineCapital (cfg : Config) (st : SimState)
    (prev : Option DailyObservation) (today : DailyObservation) :
    (rolloverStep cfg st prev today).1.baselineCapital = st.baselineCapital := by
  cases prev with
  | none => rfl
  | some p =>
    unfold rolloverStep
    by_cases h : today.expiry_near ≠ p.expiry_near <;> simp [h]

theorem rolloverStep_peakEquity (cfg : Config) (st : SimState)
    (prev : Option DailyObservation) (today : DailyObservation) :
    (rolloverStep cfg st prev today).1.peakEquity = st.peakEquity := by
  cases prev with
  | none => rfl
  | some p =>
    unfold rolloverStep
    by_cases h : today.expiry_near ≠ p.expiry_near <;> simp [h]

theorem rolloverStep_trade_type (cfg : Config) (st : SimState)
    (prev : Option DailyObservation) (today : DailyObservation) :
    ∀ t ∈ (rolloverStep cfg st prev today).2, t.type = TradeType.Rollover := by
  cases prev with
  | none => simp [rolloverStep]
  | some p =>
    unfold rolloverStep
    by_cases h : today.expiry_near ≠ p.expiry_near <;> simp [h]

theorem rolloverStep_trade_date (cfg : Config) (st : SimState)
    (prev : Option DailyObservation) (today : DailyObservation) :
    ∀ t ∈ (rolloverStep cfg st prev today).2, t.date = today.date := by
  cases prev with
  | none => simp [rolloverStep]
  | some p =>
    unfold rolloverStep
    by_cases h : today.expiry_near ≠ p.expiry_near <;> simp [h]

theorem compoundingStep_currentLots (cfg : Config) (st : SimState) (eq : ℚ)
    (today : DailyObservation) :
    (compoundingStep cfg st eq today).1.currentLots = st.currentLots ∨
      (compoundingStep cfg st eq today).1.currentLots = st.currentLots * 2 := by
  unfold compoundingStep
  split
  · right; rfl
  · left; rfl

theorem compoundingStep_peakEquity (cfg : Config) (st : SimState) (eq : ℚ)
    (today : DailyObservation) :
    (compoundingStep cfg st eq today).1.peakEquity = st.peakEquity := by
  unfold compoundingStep
  split <;> rfl

theorem compoundingStep_trade_date (cfg : Config) (st : SimState) (eq : ℚ)
    (today : DailyObservation) :
    ∀ t ∈ (compoundingStep cfg st eq today).2, t.date = today.date := by
  unfold compoundingStep
  split <;> simp

theorem simStep_trade_date (cfg : Config) (st : SimState)
    (prev : Option DailyObservation) (today : DailyObservation) :
    ∀ t ∈ (simStep cfg st prev today).2.1, t.date = today.date := by
  intro t ht
  unfold simStep at ht
  simp only [List.mem_append] at ht
  rcases ht with h | h
  · exact rolloverStep_trade_date cfg st prev today t h
  · exact compoundingStep_trade_date cfg _ _ today t h

theorem simStep_point_date (cfg : Config) (st : SimState)
    (prev : Option DailyObservation) (today : DailyObservation) :
    (simStep cfg st prev today).2.2.date = today.date := rfl

theorem runAll_trade_dates (cfg : Config) :
    ∀ (ds : List DailyObservation) (prev : Option DailyObservation) (st : SimState),
      ∀ t ∈ (runAll cfg prev st ds).2.1, t.date ∈ ds.map (fun d => d.date) := by
  intro ds
  induction ds with
  | nil => intro prev st t ht; simp [runAll] at ht
  | cons d ds ih =>
    intro prev st t ht
    simp only [runAll, List.mem_append] at ht
    rcases ht with h | h
    · simp [simStep_trade_date cfg st prev d t h]
    · simp only [List.map_cons, List.mem_cons]
      exact Or.inr (ih (some d) _ t h)

theorem runAll_point_dates (cfg : Config) :
    ∀ (ds : List DailyObservation) (prev : Option DailyObservation) (st : SimState),
      (runAll cfg prev st ds).2.2.map (fun p => p.date) = ds.map (fun d => d.date) := by
  intro ds
  induction ds with
  | nil => intro prev st; rfl
  | cons d ds ih =>
    intro prev st
    simp only [runAll, List.map_cons]
    rw [ih, simStep_point_date]

/-- Destructuring a successful run. -/
theorem runBacktest_eq_some {cfg : Config} {data : List DailyObservation}
    {res : BacktestResults} (h : runBacktest cfg data = some res) :
    ∃ d0 d1 rest, filteredData cfg data = d0 :: d1 :: rest ∧
      res = buildResults cfg (d0 :: d1 :: rest) d0 := by
  unfold runBacktest at h
  by_cases he : data.isEmpty
  · rw [if_pos he] at h; exact absurd h (by simp)
  · rw [if_neg he] at h
    rcases hm : filteredData cfg data with _ | ⟨d0, _ | ⟨d1, rest⟩⟩ <;> rw [hm] at h
    · exact absurd h (by simp)
    · exact absurd h (by simp)
    · exact ⟨d0, d1, rest, rfl, (Option.some_injective _ h).symm⟩

theorem jsToFixed_zero (n : ℕ) : jsToFixed n 0 = 0 := by
  unfold jsToFixed
  norm_num

theorem jsToFixed_nonneg (n : ℕ) (x : ℚ) (h : 0 ≤ x) : 0 ≤ jsToFixed n x := by
  unfold jsToFixed
  apply div_nonneg _ (by positivity)
  have : (0:ℤ) ≤ ⌊x * (10:ℚ)^n + 1/2⌋ := by
    apply Int.floor_nonneg.mpr
    positivity
  exact_mod_cast this

theorem drawdownPercentCalc_nonneg {peak eq : ℚ} (h : eq ≤ peak) :
    0 ≤ drawdownPercentCalc peak eq := by
  unfold drawdownPercentCalc
  split
  · have hp : (0:ℚ) < peak := by assumption
    have : 0 ≤ peak - eq := by linarith
    positivity
  · exact le_refl 0

theorem drawdownPercentCalc_self (peak : ℚ) : drawdownPercentCalc peak peak = 0 := by
  unfold drawdownPercentCalc
  split <;> simp

theorem drawdownPercentCalc_nonpos {peak : ℚ} (eq : ℚ) (h : peak ≤ 0) :
    drawdownPercentCalc peak eq = 0 := by
  unfold drawdownPercentCalc
  rw [if_neg (not_lt.mpr h)]

theorem drawdownPercentCalc_le_100 {peak eq : ℚ} (h0 : 0 ≤ eq) :
    drawdownPercentCalc peak eq ≤ 100 := by
  unfold drawdownPercentCalc
  split
  · have hp : (0:ℚ) < peak := by assumption
    rw [div_mul_eq_mul_div, div_le_iff₀ hp]
    nlinarith
  · norm_num

theorem simStep_peakEquity (cfg : Config) (st : SimState)
    (prev : Option DailyObservation) (today : DailyObservation) :
    (simStep cfg st prev today).1.peakEquity =
      max st.peakEquity (mtmEquity (rolloverStep cfg st prev today).1 today) := by
  unfold simStep
  simp only [compoundingStep_peakEquity, rolloverStep_peakEquity]
  rcases le_or_lt (mtmEquity (rolloverStep cfg st prev today).1 today) st.peakEquity with h | h
  · rw [if_neg (not_lt.mpr h), max_eq_left h]
  · rw [if_pos h, max_eq_right (le_of_lt h)]

theorem simStep_point_drawdown (cfg : Config) (st : SimState)
    (prev : Option DailyObservation) (today : DailyObservation) :
    (simStep cfg st prev today).2.2.drawdown =
      jsToFixed 2 (drawdownPercentCalc (simStep cfg st prev today).1.peakEquity
        (mtmEquity (rolloverStep cfg st prev today).1 today)) := rfl

theorem simStep_point_drawdown_nonneg (cfg : Config) (st : SimState)
    (prev : Option DailyObservation) (today : DailyObservation) :
    0 ≤ (simStep cfg st prev today).2.2.drawdown := by
  rw [simStep_point_drawdown, simStep_peakEquity]
  exact jsToFixed_nonneg _ _ (drawdownPercentCalc_nonneg (le_max_right _ _))

theorem runAll_point_drawdown_nonneg (cfg : Config) :
    ∀ (ds : List DailyObservation) (prev : Option DailyObservation) (st : SimState),
      ∀ p ∈ (runAll cfg prev st ds).2.2, 0 ≤ p.drawdown := by
  intro ds
  induction ds with
  | nil => intro prev st p hp; simp [runAll] at hp
  | cons d ds ih =>
    intro prev st p hp
    simp only [runAll, List.mem_cons] at hp
    rcases hp with h | h
    · rw [h]; exact simStep_point_drawdown_nonneg cfg st prev d
    · exact ih (some d) _ p h

theorem simStep_currentLots (cfg : Config) (st : SimState)
    (prev : Option DailyObservation) (today : DailyObservation) :
    (simStep cfg st prev today).1.currentLots = st.currentLots ∨
      (simStep cfg st prev today).1.currentLots = st.currentLots * 2 := by
  unfold simStep
  simp only
  rw [show ({ (compoundingStep cfg (rolloverStep cfg st prev today).1
      (mtmEquity (rolloverStep cfg st prev today).1 today) today).1 with
        peakEquity := _ } : SimState).currentLots =
      (compoundingStep cfg (rolloverStep cfg st prev today).1
        (mtmEquity (rolloverStep cfg st prev today).1 today) today).1.currentLots from rfl]
  rw [← rolloverStep_currentLots cfg st prev today]
  exact compoundingStep_currentLots cfg _ _ today

theorem simStep_point_lots (cfg : Config) (st : SimState)
    (prev : Option DailyObservation) (today : DailyObservation) :
    (simStep cfg st prev today).2.2.lots = (simStep cfg st prev today).1.currentLots := rfl

theorem simStep_lotsStepRel (cfg : Config) (st : SimState)
    (prev : Option DailyObservation) (today : DailyObservation)
    (h : 0 < st.currentLots) :
    lotsStepRel st.currentLots (simStep cfg st prev today).1.currentLots := by
  rcases simStep_currentLots cfg st prev today with hl | hl <;>
    constructor
  · left; exact hl
  · rw [hl]
  · right; rw [hl]; ring
  · rw [hl]; linarith

theorem simStep_currentLots_pos (cfg : Config) (st : SimState)
    (prev : Option DailyObservation) (today : DailyObservation)
    (h : 0 < st.currentLots) :
    0 < (simStep cfg st prev today).1.currentLots := by
  rcases simStep_currentLots cfg st prev today with hl | hl <;> rw [hl] <;> linarith

theorem runAll_lots_chain (cfg : Config) :
    ∀ (ds : List DailyObservation) (prev : Option DailyObservation) (st : SimState),
      0 < st.currentLots →
      List.Chain lotsStepRel st.currentLots
        ((runAll cfg prev st ds).2.2.map fun p => p.lots) := by
  intro ds
  induction ds with
  | nil => intro prev st _; exact List.Chain.nil
  | cons d ds ih =>
    intro prev st h
    simp only [runAll, List.map_cons]
    refine List.Chain.cons ?_ ?_
    · rw [simStep_point_lots]
      exact simStep_lotsStepRel cfg st prev d h
    · rw [simStep_point_lots]
      exact ih (some d) _ (simStep_currentLots_pos cfg st prev d h)

theorem chain_imp_chain' {α : Type} {R : α → α → Prop} {a : α} {l : List α}
    (h : List.Chain R a l) : List.Chain' R l := by
  cases h with
  | nil => exact trivial
  | cons hr hc => exact hc

theorem mem_insertNat {n m : ℕ} : ∀ {l : List ℕ}, m ∈ insertNat n l ↔ m = n ∨ m ∈ l := by
  intro l
  induction l with
  | nil => simp [insertNat]
  | cons a t ih =>
    unfold insertNat
    split
    · simp
    · simp only [List.mem_cons, ih]
      tauto

theorem insertNat_pairwise {n : ℕ} :
    ∀ {l : List ℕ}, List.Pairwise (· ≤ ·) l →
      List.Pairwise (· ≤ ·) (insertNat n l) := by
  intro l
  induction l with
  | nil => intro _; simp [insertNat]
  | cons a t ih =>
    intro h
    rw [List.pairwise_cons] at h
    unfold insertNat
    split
    · rename_i hle
      rw [List.pairwise_cons]
      refine ⟨?_, List.pairwise_cons.mpr h⟩
      intro m hm
      rcases List.mem_cons.mp hm with he | ht
      · rw [he]; exact hle
      · exact le_trans hle (h.1 m ht)
    · rename_i hgt
      rw [List.pairwise_cons]
      refine ⟨?_, ih h.2⟩
      intro m hm
      rcases mem_insertNat.mp hm with he | ht
      · rw [he]; exact Nat.le_of_not_le hgt
      · exact h.1 m ht

theorem insertNat_nodup {n : ℕ} :
    ∀ {l : List ℕ}, n ∉ l → l.Nodup → (insertNat n l).Nodup := by
  intro l
  induction l with
  | nil => intro _ _; simp [insertNat]
  | cons a t ih =>
    intro hn h
    rw [List.nodup_cons] at h
    unfold insertNat
    split
    · rw [List.nodup_cons]
      exact ⟨hn, List.nodup_cons.mpr h⟩
    · rw [List.nodup_cons]
      constructor
      · intro hmem
        rcases mem_insertNat.mp hmem with he | ht
        · exact hn (by rw [← he]; exact List.mem_cons_self a t)
        · exact h.1 ht
      · exact ih (fun hm => hn (List.mem_cons_of_mem a hm)) h.2

theorem mem_sortNat {m : ℕ} : ∀ {l : List ℕ}, m ∈ sortNat l ↔ m ∈ l := by
  intro l
  induction l with
  | nil => simp [sortNat]
  | cons a t ih =>
    show m ∈ insertNat a (sortNat t) ↔ _
    rw [mem_insertNat, ih]
    simp

theorem sortNat_pairwise : ∀ (l : List ℕ), List.Pairwise (· ≤ ·) (sortNat l) := by
  intro l
  induction l with
  | nil => simp [sortNat]
  | cons a t ih => exact insertNat_pairwise ih

theorem sortNat_nodup : ∀ {l : List ℕ}, l.Nodup → (sortNat l).Nodup := by
  intro l
  induction l with
  | nil => intro _; simp [sortNat]
  | cons a t ih =>
    intro h
    rw [List.nodup_cons] at h
    exact insertNat_nodup (fun hm => h.1 (mem_sortNat.mp hm)) (ih h.2)

theorem sortNat_pairwise_lt {l : List ℕ} (h : l.Nodup) :
    List.Pairwise (· < ·) (sortNat l) := by
  have h1 := sortNat_pairwise l
  have h2 := sortNat_nodup h
  exact (h1.and h2).imp fun hab => lt_of_le_of_ne hab.1 hab.2

theorem pairwise_head_le {y0 : ℕ} {ys : List ℕ}
    (h : List.Pairwise (· ≤ ·) (y0 :: ys)) :
    ∀ m ∈ y0 :: ys, y0 ≤ m := by
  intro m hm
  rcases List.mem_cons.mp hm with he | ht
  · rw [he]
  · exact (List.pairwise_cons.mp h).1 m ht

theorem pairwise_le_getLast :
    ∀ {l : List ℕ}, List.Pairwise (· ≤ ·) l → ∀ {a : ℕ}, l.getLast? = some a →
      ∀ m ∈ l, m ≤ a := by
  intro l
  induction l with
  | nil => intro _ a ha; simp at ha
  | cons b t ih =>
    intro h a ha m hm
    cases t with
    | nil =>
      simp at ha hm
      rw [hm, ← ha]
    | cons c t2 =>
      rw [List.getLast?_cons_cons] at ha
      rcases List.mem_cons.mp hm with he | ht
      · rw [he]
        have hba : b ≤ c := (List.pairwise_cons.mp h).1 c (List.mem_cons_self c t2)
        have := ih (List.pairwise_cons.mp h).2 ha c (List.mem_cons_self c t2)
        exact le_trans hba this
      · exact ih (List.pairwise_cons.mp h).2 ha m ht

theorem yoyAux_years (s : List EquityPoint) :
    ∀ (ys : List ℕ) (pe : Option ℚ),
      (yoyAux s pe ys).map (fun y => y.year) = ys := by
  intro ys
  induction ys with
  | nil => intro pe; rfl
  | cons y t ih =>
    intro pe
    simp only [yoyAux, List.map_cons]
    rw [ih]

theorem chainFactor_cons (y : YearlyReturn) (l : List YearlyReturn) :
    chainFactor (y :: l) = (1 + y.retExact / 100) * chainFactor l := by
  unfold chainFactor
  rw [List.map_cons, List.prod_cons]

theorem one_add_ret_div (e0 e : ℚ) (h : e0 ≠ 0) :
    1 + (e - e0) / e0 * 100 / 100 = e / e0 := by
  field_simp
  ring

theorem yoyAux_chain (s : List EquityPoint) :
    ∀ (ys : List ℕ) (e0 : ℚ), e0 ≠ 0 →
      (∀ y ∈ ys.dropLast, endOfYear s y ≠ 0) →
      ∀ ylast ∈ ys.getLast?,
        chainFactor (yoyAux s (some e0) ys) = endOfYear s ylast / e0 := by
  intro ys
  induction ys with
  | nil => intro e0 _ _ ylast hl; simp at hl
  | cons y t ih =>
    intro e0 he0 hnz ylast hl
    cases t with
    | nil =>
      simp only [List.getLast?_singleton, Option.mem_def, Option.some_inj] at hl
      subst hl
      simp only [yoyAux, Option.getD_some]
      rw [chainFactor_cons]
      show (1 + (endOfYear s y - e0) / e0 * 100 / 100) * chainFactor [] = _
      unfold chainFactor
      rw [List.map_nil, List.prod_nil, mul_one, one_add_ret_div _ _ he0]
    | cons y1 t1 =>
      rw [List.getLast?_cons_cons] at hl
      have hy : endOfYear s y ≠ 0 := by
        apply hnz
        rw [List.dropLast_cons_of_ne_nil (by simp : y1 :: t1 ≠ [])]
        exact List.mem_cons_self y _
      have hrest : ∀ z ∈ (y1 :: t1).dropLast, endOfYear s z ≠ 0 := by
        intro z hz
        apply hnz
        rw [List.dropLast_cons_of_ne_nil (by simp : y1 :: t1 ≠ [])]
        exact List.mem_cons_of_mem y hz
      have := ih (endOfYear s y) hy hrest ylast hl
      simp only [yoyAux, Option.getD_some] at this ⊢
      rw [chainFactor_cons]
      show (1 + (endOfYear s y - e0) / e0 * 100 / 100) * _ = _
      rw [this, one_add_ret_div _ _ he0]
      field_simp
      ring

theorem find?_head {α : Type} {p : α → Bool} {a : α} {l : List α}
    (hh : l.head? = some a) (hp : p a = true) : l.find? p = some a := by
  cases l with
  | nil => simp at hh
  | cons b t =>
    simp only [List.head?_cons, Option.some_inj] at hh
    subst hh
    exact List.find?_cons_of_pos t hp

theorem mem_of_getLast_eq {α : Type} {l : List α} {a : α}
    (h : l.getLast? = some a) : a ∈ l := by
  have hm : a ∈ l.getLast? := by rw [h]; rfl
  rcases List.mem_getLast?_eq_getLast hm with ⟨hne, he⟩
  rw [he]
  exact List.getLast_mem hne

/-- On a series whose years are non-decreasing, the first sorted year key is
the year of the first point, and its `start` equity is the first equity. -/
theorem startOfYear_head {s : List EquityPoint} {p0 : EquityPoint}
    {ts : List EquityPoint}
    (hs : s = p0 :: ts)
    (hmono : List.Pairwise (fun a b : EquityPoint => a.date.year ≤ b.date.year) s)
    {y0 : ℕ} {ys : List ℕ}
    (hsort : sortNat ((s.map fun p => p.date.year).dedup) = y0 :: ys) :
    y0 = p0.date.year ∧ startOfYear s y0 = (p0.equity : ℚ) := by
  have hy0mem : y0 ∈ s.map fun p => p.date.year := by
    have : y0 ∈ sortNat ((s.map fun p => p.date.year).dedup) := by
      rw [hsort]; exact List.mem_cons_self y0 ys
    exact List.mem_dedup.mp (mem_sortNat.mp this)
  have hmonoY : List.Pairwise (· ≤ ·) (s.map fun p => p.date.year) :=
    List.pairwise_map.mpr hmono
  have hhead : (s.map fun p => p.date.year) = p0.date.year ::
      (ts.map fun p => p.date.year) := by rw [hs]; rfl
  have h1 : p0.date.year ≤ y0 := by
    apply pairwise_head_le (hhead ▸ hmonoY)
    rw [← hhead]; exact hy0mem
  have h2 : y0 ≤ p0.date.year := by
    have hpw : List.Pairwise (· ≤ ·) (y0 :: ys) := by
      rw [← hsort]; exact sortNat_pairwise _
    have hpmem : p0.date.year ∈ y0 :: ys := by
      rw [← hsort]
      apply mem_sortNat.mpr
      apply List.mem_dedup.mpr
      rw [hhead]; exact List.mem_cons_self _ _
    exact pairwise_head_le hpw _ hpmem
  have hy : y0 = p0.date.year := le_antisymm h2 h1
  refine ⟨hy, ?_⟩
  unfold startOfYear
  rw [find?_head (by rw [hs]; rfl) (by rw [hy]; simp)]

/-- On a series whose years are non-decreasing, the last sorted year key is
the year of the last point, and its `end` equity is the last equity. -/
theorem endOfYear_getLast {s : List EquityPoint} {plast : EquityPoint}
    (hlast : s.getLast? = some plast)
    (hmono : List.Pairwise (fun a b : EquityPoint => a.date.year ≤ b.date.year) s)
    {ys : List ℕ} {ylast : ℕ}
    (hsort : sortNat ((s.map fun p => p.date.year).dedup) = ys)
    (hl : ys.getLast? = some ylast) :
    ylast = plast.date.year ∧ endOfYear s ylast = (plast.equity : ℚ) := by
  have hmonoY : List.Pairwise (· ≤ ·) (s.map fun p => p.date.year) :=
    List.pairwise_map.mpr hmono
  have hylmem : ylast ∈ s.map fun p => p.date.year := by
    have : ylast ∈ ys := mem_of_getLast_eq hl
    rw [← hsort] at this
    exact List.mem_dedup.mp (mem_sortNat.mp this)
  have hylast : (s.map fun p => p.date.year).getLast? = some plast.date.year := by
    rw [List.getLast?_map, hlast]; rfl
  have h1 : ylast ≤ plast.date.year :=
    pairwise_le_getLast hmonoY hylast ylast hylmem
  have h2 : plast.date.year ≤ ylast := by
    have hpw : List.Pairwise (· ≤ ·) ys := by
      rw [← hsort]; exact sortNat_pairwise _
    have hpmem : plast.date.year ∈ ys := by
      rw [← hsort]
      apply mem_sortNat.mpr
      apply List.mem_dedup.mpr
      exact mem_of_getLast_eq hylast
    exact pairwise_le_getLast hpw hl _ hpmem
  have hy : ylast = plast.date.year := le_antisymm h1 h2
  refine ⟨hy, ?_⟩
  unfold endOfYear
  rw [find?_head (by rw [List.head?_reverse, hlast]) (by rw [hy]; simp)]

theorem Date.year_le_of_ltB {a b : Date} (h : a.ltB b = true) : a.year ≤ b.year := by
  unfold Date.ltB at h
  simp only [Bool.or_eq_true, Bool.and_eq_true, decide_eq_true_eq, beq_iff_eq] at h
  rcases h with h | ⟨he, _⟩
  · exact le_of_lt h
  · exact le_of_eq he

theorem calculateYoY_chain (s : List EquityPoint) (y0 ylast : ℕ) (ys : List ℕ)
    (hsort : sortNat ((s.map fun p => p.date.year).dedup) = y0 :: ys)
    (hlast : (y0 :: ys).getLast? = some ylast)
    (h0 : startOfYear s y0 ≠ 0)
    (hnz : ∀ y ∈ (y0 :: ys).dropLast, endOfYear s y ≠ 0) :
    chainFactor (calculateYoY s) = endOfYear s ylast / startOfYear s y0 := by
  unfold calculateYoY
  rw [hsort]
  cases ys with
  | nil =>
    simp only [List.getLast?_singleton, Option.some_inj] at hlast
    subst hlast
    simp only [yoyAux, Option.getD_none]
    rw [chainFactor_cons]
    show (1 + (endOfYear s y0 - startOfYear s y0) / startOfYear s y0 * 100 / 100) *
        chainFactor [] = _
    unfold chainFactor
    rw [List.map_nil, List.prod_nil, mul_one, one_add_ret_div _ _ h0]
  | cons y1 t =>
    rw [List.getLast?_cons_cons] at hlast
    have hy0 : endOfYear s y0 ≠ 0 := by
      apply hnz
      rw [List.dropLast_cons_of_ne_nil (by simp : y1 :: t ≠ [])]
      exact List.mem_cons_self y0 _
    have hrest : ∀ z ∈ (y1 :: t).dropLast, endOfYear s z ≠ 0 := by
      intro z hz
      apply hnz
      rw [List.dropLast_cons_of_ne_nil (by simp : y1 :: t ≠ [])]
      exact List.mem_cons_of_mem y0 hz
    have hchain := yoyAux_chain s (y1 :: t) (endOfYear s y0) hy0 hrest ylast hlast
    simp only [yoyAux, Option.getD_none] at hchain ⊢
    rw [chainFactor_cons]
    show (1 + (endOfYear s y0 - startOfYear s y0) / startOfYear s y0 * 100 / 100) * _ = _
    rw [hchain, one_add_ret_div _ _ h0]
    field_simp
    ring

theorem buildResults_equityCurve (cfg : Config) (data : List DailyObservation)
    (d0 : DailyObservation) :
    (buildResults cfg data d0).equityCurve =
      (runAll cfg none (initState cfg d0) data).2.2 := rfl

theorem buildResults_tradeLog (cfg : Config) (data : List DailyObservation)
    (d0 : DailyObservation) :
    (buildResults cfg data d0).tradeLog =
      (runAll cfg none (initState cfg d0) data).2.1.reverse := rfl

theorem buildResults_yearlyReturns (cfg : Config) (data : List DailyObservation)
    (d0 : DailyObservation) :
    (buildResults cfg data d0).yearlyReturns =
      calculateYoY (buildResults cfg data d0).equityCurve := rfl

theorem buildResults_initialCapital (cfg : Config) (data : List DailyObservation)
    (d0 : DailyObservation) :
    (buildResults cfg data d0).stats.initialCapital = initialCapitalOf cfg d0 := rfl

theorem buildResults_finalCapital (cfg : Config) (data : List DailyObservation)
    (d0 : DailyObservation) {plast : EquityPoint}
    (h : (buildResults cfg data d0).equityCurve.getLast? = some plast) :
    (buildResults cfg data d0).stats.finalCapital = plast.equity := by
  show (match (runAll cfg none (initState cfg d0) data).2.2.getLast? with
        | some p => p.equity
        | none => 0) = plast.equity
  rw [buildResults_equityCurve] at h
  rw [h]

theorem mtmEquity_initState (cfg : Config) (d0 : DailyObservation) :
    mtmEquity (initState cfg d0) d0 = initialCapitalOf cfg d0 := by
  unfold mtmEquity initState
  simp

theorem first_step_point_equity (cfg : Config) (d0 : DailyObservation) :
    (simStep cfg (initState cfg d0) none d0).2.2.equity =
      jsRound (initialCapitalOf cfg d0) := by
  show jsRound (mtmEquity (rolloverStep cfg (initState cfg d0) none d0).1 d0) = _
  rw [show rolloverStep cfg (initState cfg d0) none d0 = (initState cfg d0, []) from rfl]
  rw [mtmEquity_initState]

theorem first_step_no_fire (cfg : Config) (d0 : DailyObservation)
    (hpos : 0 < initialCapitalOf cfg d0) (hcf : 0 < cfg.compoundingFactor) :
    simStep cfg (initState cfg d0) none d0 =
      (initState cfg d0, [],
       { date := d0.date, equity := jsRound (initialCapitalOf cfg d0)
         lots := cfg.initialLots, drawdown := 0 }) := by
  have hroll : rolloverStep cfg (initState cfg d0) none d0 =
      (initState cfg d0, []) := rfl
  have hb : (initState cfg d0).baselineCapital = initialCapitalOf cfg d0 := rfl
  have hcomp : compoundingStep cfg (initState cfg d0)
      (mtmEquity (initState cfg d0) d0) d0 = (initState cfg d0, []) := by
    unfold compoundingStep
    apply if_neg
    rw [mtmEquity_initState, hb]
    rintro ⟨-, -, hle⟩
    have hpp : (0:ℚ) < cfg.compoundingFactor / 100 * initialCapitalOf cfg d0 :=
      mul_pos (div_pos hcf (by norm_num)) hpos
    linarith
  unfold simStep
  rw [hroll]
  simp only
  rw [hcomp]
  simp only
  rw [mtmEquity_initState]
  have hpk : (initState cfg d0).peakEquity = initialCapitalOf cfg d0 := rfl
  rw [hpk, if_neg (lt_irrefl _)]
  have hlots : (initState cfg d0).currentLots = cfg.initialLots := rfl
  rw [drawdownPercentCalc_self, jsToFixed_zero]
  constructor

/-!
Claim theorems.
-/

/-- C1: the claim requires that a near-label change detected after the
previous day's recorded `expiry_near_date` must not be executed as a
Rollover trade.  On `staleData` the label changes on 2014-03-07, thirty
days after the recorded expiry 2014-02-05 of the previous contract, yet the
engine records a Rollover trade dated 2014-03-07: the simulation loop never
consults `expiry_near_date`, contradicting the guard documented in the
repository's own `ROLLOVER_FIX_SUMMARY.md`. -/
theorem stale_rollover_executed :
    ((runBacktest staleCfg staleData).map fun r =>
        r.tradeLog.any fun t =>
          decide (t.type = TradeType.Rollover) && decide (t.date = ⟨2014, 3, 7⟩))
      = some true
    ∧ ((staleData[1]?).bind fun d => d.expiry_near_date) = some ⟨2014, 2, 5⟩
    ∧ Date.ltB ⟨2014, 2, 5⟩ ⟨2014, 3, 7⟩ = true := by
  refine ⟨?_, by decide, by decide⟩
  norm_num [runBacktest, filteredData, staleCfg, staleData, buildResults, runAll, simStep,
    rolloverStep, compoundingStep, mtmEquity, initialCapitalOf, drawdownPercentCalc,
    jsRound, jsToFixed, CONTRACT_MULTIPLIER, calculateYoY, yoyAux, sortNat, insertNat,
    startOfYear, endOfYear, maxOf, Date.leB, Date.ltB,
    (show ("05Apr2014":String) ≠ "05Feb2014" from by decide),
    (show ("05Feb2014":String) = "05Feb2014" from rfl)]

/-- C2: a rollover closes at `prev.price_near`, re-opens at `prev.price_far`,
with `grossPnL = (prev.price_near − entryPrice) × CONTRACT_MULTIPLIER × lots`,
`cost = transactionCost × lots`, `netPnL = grossPnL − cost`, cash increased by
`netPnL` and `entryPrice` set to `prev.price_far`; and on the spec's three-day
scenario the equity curve is `[1000, 1200, 1050]` with the day-3 rollover
showing `grossPnL = 200`, `cost = 50`, `netPnL = 150`, post-trade cash `1150`
and new entry price `103`, and final equity `1050`. -/
theorem rollover_mechanics_and_scenario :
    (∀ (cfg : Config) (st : SimState) (p today : DailyObservation),
      today.expiry_near ≠ p.expiry_near →
      (rolloverStep cfg st (some p) today).1.cash
          = st.cash + ((p.price_near - st.entryPrice) * CONTRACT_MULTIPLIER * st.currentLots
              - cfg.transactionCost * st.currentLots)
      ∧ (rolloverStep cfg st (some p) today).1.entryPrice = p.price_far
      ∧ ((rolloverStep cfg st (some p) today).2.map fun t =>
            (t.sellPrice, t.buyPrice, t.grossPnL, t.cost, t.netPnL))
          = [(some p.price_near, some p.price_far,
              some ((p.price_near - st.entryPrice) * CONTRACT_MULTIPLIER * st.currentLots),
              some (cfg.transactionCost * st.currentLots),
              some ((p.price_near - st.entryPrice) * CONTRACT_MULTIPLIER * st.currentLots
                - cfg.transactionCost * st.currentLots))])
    ∧ ((runBacktest specCfg scenarioData).map fun r =>
        (r.equityCurve.map fun p => p.equity,
         r.tradeLog.map fun t => (t.grossPnL, t.cost, t.netPnL, t.equity, t.buyPrice),
         r.stats.finalCapital))
        = some ([1000, 1200, 1050],
                [(some 200, some 50, some 150, 1150, some 103)], 1050) := by
  constructor
  · intro cfg st p today h
    unfold rolloverStep
    simp [h]
  · norm_num [runBacktest, filteredData, specCfg, scenarioData, scenarioObs1, scenarioObs2,
      scenarioObs3, buildResults, runAll, simStep, rolloverStep, compoundingStep, mtmEquity,
      initialCapitalOf, drawdownPercentCalc, jsRound, jsToFixed, CONTRACT_MULTIPLIER,
      calculateYoY, yoyAux, sortNat, insertNat, startOfYear, endOfYear, maxOf,
      Date.leB, Date.ltB,
      (show ("B":String) ≠ "A" from by decide), (show ("A":String) = "A" from rfl)]

/-- C2 witness: the rollover mechanics applied at the scenario's day-3 step. -/
theorem rollover_mechanics_witness :
    (rolloverStep specCfg rollSt (some scenarioObs2) scenarioObs3).1.cash
        = rollSt.cash + ((scenarioObs2.price_near - rollSt.entryPrice)
            * CONTRACT_MULTIPLIER * rollSt.currentLots
            - specCfg.transactionCost * rollSt.currentLots)
    ∧ (rolloverStep specCfg rollSt (some scenarioObs2) scenarioObs3).1.entryPrice
        = scenarioObs2.price_far
    ∧ ((rolloverStep specCfg rollSt (some scenarioObs2) scenarioObs3).2.map fun t =>
          (t.sellPrice, t.buyPrice, t.grossPnL, t.cost, t.netPnL))
        = [(some scenarioObs2.price_near, some scenarioObs2.price_far,
            some ((scenarioObs2.price_near - rollSt.entryPrice)
              * CONTRACT_MULTIPLIER * rollSt.currentLots),
            some (specCfg.transactionCost * rollSt.currentLots),
            some ((scenarioObs2.price_near - rollSt.entryPrice)
              * CONTRACT_MULTIPLIER * rollSt.currentLots
              - specCfg.transactionCost * rollSt.currentLots))] :=
  rollover_mechanics_and_scenario.1 specCfg rollSt scenarioObs2 scenarioObs3 (by decide)

/-- C5: when fewer than two observations survive the date filter, the engine
produces no output at all. -/
theorem insufficient_data_no_output (cfg : Config) (fullData : List DailyObservation)
    (h : (filteredData cfg fullData).length < 2) :
    runBacktest cfg fullData = none := by
  unfold runBacktest
  by_cases he : fullData.isEmpty
  · rw [if_pos he]
  · rw [if_neg he]
    rcases hm : filteredData cfg fullData with _ | ⟨d0, _ | ⟨d1, rest⟩⟩
    · rfl
    · rfl
    · rw [hm] at h
      simp only [List.length_cons] at h
      omega

/-- C5 witness: a single-observation input yields no output. -/
theorem insufficient_data_witness :
    (filteredData specCfg [scenarioObs1]).length < 2 ∧
      runBacktest specCfg [scenarioObs1] = none :=
  ⟨by decide, insufficient_data_no_output specCfg [scenarioObs1] (by decide)⟩

/-- C3: the daily compounding check fires exactly when `isCompounding` is on,
`neverCompound` is off and `currentEquity − baseline ≥ (factor/100) × baseline`;
firing doubles the lots, rebases `baselineCapital` to the day's equity and
emits exactly one `Compounding` trade dated that day with no price fields;
within a day the check runs once, after the rollover block, on the
post-rollover mark-to-market equity, and emits at most one `Compounding`
trade; with `baseline = 1000` and `factor = 200` it fires exactly when equity
reaches `3000`. -/
theorem compounding_check_spec :
    ∀ (cfg : Config) (st : SimState) (eq : ℚ) (today : DailyObservation),
      ((∃ t ∈ (compoundingStep cfg st eq today).2, t.type = TradeType.Compounding) ↔
        (cfg.neverCompound = false ∧ cfg.isCompounding = true ∧
          (cfg.compoundingFactor / 100) * st.baselineCapital ≤ eq - st.baselineCapital))
      ∧ (cfg.neverCompound = false → cfg.isCompounding = true →
          (cfg.compoundingFactor / 100) * st.baselineCapital ≤ eq - st.baselineCapital →
          (compoundingStep cfg st eq today).1.currentLots = st.currentLots * 2
          ∧ (compoundingStep cfg st eq today).1.baselineCapital = eq
          ∧ (compoundingStep cfg st eq today).2 =
              [{ date := today.date, type := TradeType.Compounding
                 contracts := "Position Doubled", lots := st.currentLots * 2
                 equity := eq, note := some "Profit Target Hit" }])
      ∧ (¬(cfg.neverCompound = false ∧ cfg.isCompounding = true ∧
            (cfg.compoundingFactor / 100) * st.baselineCapital ≤ eq - st.baselineCapital) →
          compoundingStep cfg st eq today = (st, []))
      ∧ (∀ prev, (simStep cfg st prev today).2.1 =
            (rolloverStep cfg st prev today).2 ++
              (compoundingStep cfg (rolloverStep cfg st prev today).1
                (mtmEquity (rolloverStep cfg st prev today).1 today) today).2)
      ∧ (∀ prev, ((simStep cfg st prev today).2.1.filter
            (fun t => decide (t.type = TradeType.Compounding))).length ≤ 1)
      ∧ (st.baselineCapital = 1000 → cfg.compoundingFactor = 200 →
          (((cfg.compoundingFactor / 100) * st.baselineCapital ≤ eq - st.baselineCapital) ↔
            3000 ≤ eq)) := by
  intro cfg st eq today
  refine ⟨?_, ?_, ?_, ?_, ?_, ?_⟩
  · unfold compoundingStep
    split
    · rename_i hc
      simp only [List.mem_singleton]
      exact ⟨fun _ => hc, fun _ => ⟨_, rfl, rfl⟩⟩
    · rename_i hc
      constructor
      · rintro ⟨t, ht, -⟩; exact absurd ht (List.not_mem_nil t)
      · intro h; exact absurd h hc
  · intro h1 h2 h3
    unfold compoundingStep
    rw [if_pos ⟨h1, h2, h3⟩]
    exact ⟨rfl, rfl, rfl⟩
  · intro hn
    unfold compoundingStep
    rw [if_neg hn]
  · intro prev; rfl
  · intro prev
    show ((((rolloverStep cfg st prev today).2 ++ _).filter _)).length ≤ 1
    rw [List.filter_append]
    have hro : ((rolloverStep cfg st prev today).2.filter
        (fun t => decide (t.type = TradeType.Compounding))) = [] := by
      apply List.filter_eq_nil_iff.mpr
      intro t ht
      have := rolloverStep_trade_type cfg st prev today t ht
      simp [this]
    rw [hro, List.nil_append]
    unfold compoundingStep
    split
    · simp
    · simp
  · intro hb hf
    rw [hb, hf]
    norm_num
    constructor <;> intro h <;> linarith

/-- C3 witness: with baseline 1000 and factor 200, equity 3000 fires the
compounding event, doubling the lots and rebasing the baseline. -/
theorem compounding_check_witness :
    (compoundingStep specCfg compSt 3000 scenarioObs1).1.currentLots
        = compSt.currentLots * 2
    ∧ (compoundingStep specCfg compSt 3000 scenarioObs1).1.baselineCapital = 3000
    ∧ ((specCfg.compoundingFactor / 100) * compSt.baselineCapital ≤
        3000 - compSt.baselineCapital ↔ 3000 ≤ (3000:ℚ)) := by
  have h := compounding_check_spec specCfg compSt 3000 scenarioObs1
  have hle : (specCfg.compoundingFactor / 100) * compSt.baselineCapital ≤
      3000 - compSt.baselineCapital := by
    norm_num [specCfg, compSt]
  have h2 := h.2.1 rfl rfl hle
  exact ⟨h2.1, h2.2.1, h.2.2.2.2.2 rfl rfl⟩

/-- C9: the equity snapshot in a `Rollover` trade is the post-realization
cash (it excludes the unrealized P&L of the freshly opened position), while
the snapshot in a `Compounding` trade is the full mark-to-market equity of
the day; the day's mark-to-market equity after a rollover equals the new cash
plus the unrealized P&L of the position opened at `prev.price_far`. -/
theorem trade_equity_snapshot_bases :
    ∀ (cfg : Config) (st : SimState) (p today : DailyObservation),
      today.expiry_near ≠ p.expiry_near →
      ((rolloverStep cfg st (some p) today).2.map fun t => t.equity)
          = [(rolloverStep cfg st (some p) today).1.cash]
      ∧ mtmEquity (rolloverStep cfg st (some p) today).1 today
          = (rolloverStep cfg st (some p) today).1.cash
            + (today.price_near - p.price_far) * CONTRACT_MULTIPLIER * st.currentLots
      ∧ (∀ (st2 : SimState) (eq : ℚ),
          ((compoundingStep cfg st2 eq today).2.map fun t => t.equity)
            = if cfg.neverCompound = false ∧ cfg.isCompounding = true ∧
                (cfg.compoundingFactor / 100) * st2.baselineCapital ≤
                  eq - st2.baselineCapital
              then [eq] else []) := by
  intro cfg st p today h
  refine ⟨?_, ?_, ?_⟩
  · unfold rolloverStep
    simp [h]
  · unfold rolloverStep mtmEquity
    simp [h]
  · intro st2 eq
    unfold compoundingStep
    split
    · rfl
    · rfl

/-- C9 witness: the snapshot bases at a concrete rollover step. -/
theorem trade_equity_snapshot_witness :
    ((rolloverStep specCfg rollSt9 (some rollPrev9) rollToday9).2.map fun t => t.equity)
        = [(rolloverStep specCfg rollSt9 (some rollPrev9) rollToday9).1.cash]
    ∧ mtmEquity (rolloverStep specCfg rollSt9 (some rollPrev9) rollToday9).1 rollToday9
        = (rolloverStep specCfg rollSt9 (some rollPrev9) rollToday9).1.cash
          + (rollToday9.price_near - rollPrev9.price_far) * CONTRACT_MULTIPLIER
            * rollSt9.currentLots
    ∧ (∀ (st2 : SimState) (eq : ℚ),
        ((compoundingStep specCfg st2 eq rollToday9).2.map fun t => t.equity)
          = if specCfg.neverCompound = false ∧ specCfg.isCompounding = true ∧
              (specCfg.compoundingFactor / 100) * st2.baselineCapital ≤
                eq - st2.baselineCapital
            then [eq] else []) :=
  trade_equity_snapshot_bases specCfg rollSt9 rollPrev9 rollToday9 (by decide)

/-- C4 counterexample: the claim says every division is guarded so that a
zero or negative denominator yields zero.  On `negData` the 2015 yearly
return divides by the 2014 closing equity `-5000 < 0` and produces `20`,
not `0` (the sign-flipped value `(-6000 - -5000) / -5000 × 100`): the
division in `calculateYoY` carries no guard. -/
theorem yoy_division_unguarded_cex :
    ((runBacktest negCfg negData).map fun r =>
        (r.yearlyReturns.map fun y => (y.year, y.retExact),
         endOfYear r.equityCurve 2014))
      = some ([(2014, -600), (2015, 20)], -5000)
    ∧ (-5000 : ℚ) < 0 ∧ (20 : ℚ) ≠ 0 := by
  refine ⟨?_, by norm_num, by norm_num⟩
  norm_num [runBacktest, filteredData, negCfg, negData, buildResults, runAll, simStep,
    rolloverStep, compoundingStep, mtmEquity, initialCapitalOf, drawdownPercentCalc,
    jsRound, jsToFixed, CONTRACT_MULTIPLIER, calculateYoY, yoyAux, sortNat, insertNat,
    startOfYear, endOfYear, maxOf, Date.leB, Date.ltB]

/-- C4 amended: only the drawdown division is guarded — a non-positive peak
equity yields zero drawdown — while the return divisions of `calculateYoY`
(and the total-return computation) are unguarded, so a negative denominator
propagates a sign-flipped non-zero return, as on `negData`. -/
theorem division_guards_amended :
    (∀ peak eq : ℚ, peak ≤ 0 → drawdownPercentCalc peak eq = 0)
    ∧ ((runBacktest negCfg negData).map fun r =>
          r.yearlyReturns.map fun y => (y.year, y.retExact))
        = some [(2014, -600), (2015, 20)] := by
  constructor
  · intro peak eq h
    exact drawdownPercentCalc_nonpos eq h
  · norm_num [runBacktest, filteredData, negCfg, negData, buildResults, runAll, simStep,
      rolloverStep, compoundingStep, mtmEquity, initialCapitalOf, drawdownPercentCalc,
      jsRound, jsToFixed, CONTRACT_MULTIPLIER, calculateYoY, yoyAux, sortNat, insertNat,
      startOfYear, endOfYear, maxOf, Date.leB, Date.ltB]

/-- C4 witness: the drawdown guard at a non-positive peak. -/
theorem division_guards_witness : drawdownPercentCalc (-1) 5 = 0 :=
  division_guards_amended.1 (-1) 5 (by norm_num)

/-- C7 counterexample: the claim bounds `drawdownPercent ≤ 100` for all
points, but when equity turns negative the recorded drawdown exceeds 100:
on `negData` restricted to 2014 the day-two point records a drawdown of
`600` (peak `1000`, equity `-5000`). -/
theorem drawdown_exceeds_100_cex :
    ((runBacktest ddCfg negData).map fun r =>
        r.equityCurve.map fun p => p.drawdown)
      = some [0, 600]
    ∧ ¬((600:ℚ) ≤ 100) := by
  refine ⟨?_, by norm_num⟩
  norm_num [runBacktest, filteredData, ddCfg, negData, buildResults, runAll, simStep,
    rolloverStep, compoundingStep, mtmEquity, initialCapitalOf, drawdownPercentCalc,
    jsRound, jsToFixed, CONTRACT_MULTIPLIER, calculateYoY, yoyAux, sortNat, insertNat,
    startOfYear, endOfYear, maxOf, Date.leB, Date.ltB]

/-- C7 amended: every recorded drawdown is non-negative; the drawdown is `0`
whenever the day's equity equals the (updated) peak and whenever the peak is
non-positive; the recorded value is `toFixed 2` of
`(peak − equity) / peak × 100` against the running-maximum peak; and the
`≤ 100` bound holds on days whose mark-to-market equity is non-negative —
but not in general, as `drawdown_exceeds_100_cex` shows. -/
theorem drawdown_bounds_amended :
    (∀ (cfg : Config) (data : List DailyObservation) (res : BacktestResults),
        runBacktest cfg data = some res →
        ∀ p ∈ res.equityCurve, 0 ≤ p.drawdown)
    ∧ (∀ peak : ℚ, drawdownPercentCalc peak peak = 0)
    ∧ (∀ peak eq : ℚ, 0 ≤ eq → drawdownPercentCalc peak eq ≤ 100)
    ∧ (∀ (cfg : Config) (st : SimState) (prev : Option DailyObservation)
          (today : DailyObservation),
        (simStep cfg st prev today).2.2.drawdown
          = jsToFixed 2 (drawdownPercentCalc (simStep cfg st prev today).1.peakEquity
              (mtmEquity (rolloverStep cfg st prev today).1 today))
        ∧ (simStep cfg st prev today).1.peakEquity
            = max st.peakEquity (mtmEquity (rolloverStep cfg st prev today).1 today)
        ∧ (mtmEquity (rolloverStep cfg st prev today).1 today
              = (simStep cfg st prev today).1.peakEquity →
            (simStep cfg st prev today).2.2.drawdown = 0)) := by
  refine ⟨?_, drawdownPercentCalc_self, ?_, ?_⟩
  · intro cfg data res hrun p hp
    rcases runBacktest_eq_some hrun with ⟨d0, d1, rest, hfd, hres⟩
    rw [hres, buildResults_equityCurve] at hp
    exact runAll_point_drawdown_nonneg cfg _ none _ p hp
  · intro peak eq h0
    exact drawdownPercentCalc_le_100 h0
  · intro cfg st prev today
    refine ⟨simStep_point_drawdown cfg st prev today,
            simStep_peakEquity cfg st prev today, ?_⟩
    intro heq
    rw [simStep_point_drawdown, ← heq, drawdownPercentCalc_self, jsToFixed_zero]

/-- C7 witness: the amended bounds applied at concrete values and at the flat
two-day run. -/
theorem drawdown_bounds_witness :
    (∀ p ∈ flatRes.equityCurve, 0 ≤ p.drawdown)
    ∧ drawdownPercentCalc 10 5 ≤ 100 := by
  constructor
  · apply drawdown_bounds_amended.1 specCfg flatData flatRes
    norm_num [runBacktest, filteredData, specCfg, flatData, flatObs1, flatObs2, flatRes,
      buildResults, runAll, simStep, rolloverStep, compoundingStep, mtmEquity,
      initialCapitalOf, drawdownPercentCalc, jsRound, jsToFixed, CONTRACT_MULTIPLIER,
      calculateYoY, yoyAux, sortNat, insertNat, startOfYear, endOfYear, maxOf,
      Date.leB, Date.ltB]
  · exact drawdown_bounds_amended.2.2.1 10 5 (by norm_num)

/-- C6: with a positive configured lot size, the lot sizes recorded on
consecutive equity points are non-decreasing, and every change is an exact
doubling. -/
theorem lots_monotone_doubling :
    ∀ (cfg : Config) (data : List DailyObservation) (res : BacktestResults),
      runBacktest cfg data = some res → 0 < cfg.initialLots →
      List.Chain' lotsStepRel (res.equityCurve.map fun p => p.lots) := by
  intro cfg data res hrun hl
  rcases runBacktest_eq_some hrun with ⟨d0, d1, rest, hfd, hres⟩
  rw [hres, buildResults_equityCurve]
  exact chain_imp_chain'
    (runAll_lots_chain cfg (d0 :: d1 :: rest) none (initState cfg d0) hl)

/-- C6 witness: the lot-size chain on the flat two-day run. -/
theorem lots_monotone_witness :
    List.Chain' lotsStepRel (flatRes.equityCurve.map fun p => p.lots) := by
  apply lots_monotone_doubling specCfg flatData flatRes ?_ (by norm_num [specCfg])
  norm_num [runBacktest, filteredData, specCfg, flatData, flatObs1, flatObs2, flatRes,
    buildResults, runAll, simStep, rolloverStep, compoundingStep, mtmEquity,
    initialCapitalOf, drawdownPercentCalc, jsRound, jsToFixed, CONTRACT_MULTIPLIER,
    calculateYoY, yoyAux, sortNat, insertNat, startOfYear, endOfYear, maxOf,
    Date.leB, Date.ltB]

theorem initialCapitalOf_pos {cfg : Config} {d0 : DailyObservation}
    (hp : 0 < d0.price_near) (hm : 0 < cfg.initialMarginPercent)
    (hl : 0 < cfg.initialLots) : 0 < initialCapitalOf cfg d0 := by
  unfold initialCapitalOf CONTRACT_MULTIPLIER
  exact mul_pos (mul_pos (mul_pos hp (by norm_num)) hl) (div_pos hm (by norm_num))

/-- C10 amended: for a run that produces output from a first filtered day
with positive near price, with positive `initialMarginPercent`, positive
`initialLots` and positive `compoundingFactor`, the first equity point
records `round(initialCapital)` with `initialLots` lots and zero drawdown,
and no trade (Rollover or Compounding) is dated the first filtered day. -/
theorem first_day_clean_amended :
    ∀ (cfg : Config) (data : List DailyObservation) (res : BacktestResults)
      (d0 : DailyObservation) (rest : List DailyObservation),
      runBacktest cfg data = some res →
      filteredData cfg data = d0 :: rest →
      0 < d0.price_near → 0 < cfg.initialMarginPercent → 0 < cfg.initialLots →
      0 < cfg.compoundingFactor →
      List.Pairwise (fun a b : DailyObservation => a.date.ltB b.date = true) data →
      res.equityCurve.head? = some
        { date := d0.date, equity := jsRound res.stats.initialCapital
          lots := cfg.initialLots, drawdown := 0 }
      ∧ ∀ t ∈ res.tradeLog, t.date ≠ d0.date := by
  intro cfg data res d0 rest hrun hfd0 hp hm hl hcf hpw
  rcases runBacktest_eq_some hrun with ⟨e0, e1, rest', hfd, hres⟩
  rw [hfd0] at hfd
  injection hfd with h1 h2
  subst h1
  have hpos : 0 < initialCapitalOf cfg d0 := initialCapitalOf_pos hp hm hl
  have hfirst := first_step_no_fire cfg d0 hpos hcf
  have hcurve : res.equityCurve =
      (simStep cfg (initState cfg d0) none d0).2.2 ::
        (runAll cfg (some d0) (simStep cfg (initState cfg d0) none d0).1
          (e1 :: rest')).2.2 := by
    rw [hres, buildResults_equityCurve]
    rfl
  have htrades : res.tradeLog =
      ((simStep cfg (initState cfg d0) none d0).2.1 ++
        (runAll cfg (some d0) (simStep cfg (initState cfg d0) none d0).1
          (e1 :: rest')).2.1).reverse := by
    rw [hres, buildResults_tradeLog]
    rfl
  constructor
  · rw [hcurve, List.head?_cons, hfirst]
    rw [hres, buildResults_initialCapital]
  · intro t ht
    rw [htrades, List.mem_reverse, hfirst] at ht
    simp only [List.nil_append] at ht
    have hdate := runAll_trade_dates cfg (e1 :: rest') (some d0) _ t ht
    have hpwf : List.Pairwise (fun a b : DailyObservation => a.date.ltB b.date = true)
        (filteredData cfg data) := List.Pairwise.filter _ hpw
    rw [hfd0, h2] at hpwf
    rcases List.mem_map.mp hdate with ⟨x, hx, hxd⟩
    have hlt : d0.date.ltB x.date = true :=
      (List.pairwise_cons.mp hpwf).1 x hx
    rw [hxd] at hlt
    exact Date.ne_of_ltB hlt

/-- C10 witness: the amended first-day property on the flat two-day run. -/
theorem first_day_clean_witness :
    flatRes.equityCurve.head? = some
      { date := flatObs1.date, equity := jsRound flatRes.stats.initialCapital
        lots := specCfg.initialLots, drawdown := 0 }
    ∧ ∀ t ∈ flatRes.tradeLog, t.date ≠ flatObs1.date := by
  apply first_day_clean_amended specCfg flatData flatRes flatObs1 [flatObs2]
  · norm_num [runBacktest, filteredData, specCfg, flatData, flatObs1, flatObs2, flatRes,
      buildResults, runAll, simStep, rolloverStep, compoundingStep, mtmEquity,
      initialCapitalOf, drawdownPercentCalc, jsRound, jsToFixed, CONTRACT_MULTIPLIER,
      calculateYoY, yoyAux, sortNat, insertNat, startOfYear, endOfYear, maxOf,
      Date.leB, Date.ltB]
  · rfl
  · norm_num [flatObs1]
  · norm_num [specCfg]
  · norm_num [specCfg]
  · norm_num [specCfg]
  · rw [show flatData = [flatObs1, flatObs2] from rfl]
    refine List.Pairwise.cons ?_ (List.pairwise_singleton _ _)
    intro b hb
    rw [List.mem_singleton] at hb
    subst hb
    decide

/-- C10 counterexample: with `compoundingFactor = 0` (positive first-day
price and positive margin), the zero threshold is met on day one: the first
equity point records `2` lots instead of `initialLots = 1`, and a
`Compounding` trade is dated the first filtered day. -/
theorem first_day_trade_cex :
    ((runBacktest zeroCfCfg flatData).map fun r =>
        (r.equityCurve.head?.map fun p => p.lots,
         r.tradeLog.any fun t => decide (t.date = flatObs1.date)))
      = some (some 2, true)
    ∧ zeroCfCfg.initialLots = 1 ∧ 0 < flatObs1.price_near
    ∧ 0 < zeroCfCfg.initialMarginPercent := by
  refine ⟨?_, rfl, by norm_num [flatObs1], by norm_num [zeroCfCfg]⟩
  norm_num [runBacktest, filteredData, zeroCfCfg, flatData, flatObs1, flatObs2,
    buildResults, runAll, simStep, rolloverStep, compoundingStep, mtmEquity,
    initialCapitalOf, drawdownPercentCalc, jsRound, jsToFixed, CONTRACT_MULTIPLIER,
    calculateYoY, yoyAux, sortNat, insertNat, startOfYear, endOfYear, maxOf,
    Date.leB, Date.ltB]

/-- C8: the yearly returns group equity points by calendar year, chain each
year's start to the prior year's end (first year: its own first equity), are
ordered by ascending year, and — taking the exact per-year return values the
code computes before display rounding — compounding them sequentially from
`initialCapital` reproduces the final equity exactly, for every run on
date-sorted input whose initial capital is a nonzero integer and whose
year-end equities are nonzero. -/
theorem yearly_return_chaining :
    ∀ (cfg : Config) (data : List DailyObservation) (res : BacktestResults),
      runBacktest cfg data = some res →
      List.Pairwise (fun a b : DailyObservation => a.date.ltB b.date = true) data →
      (jsRound res.stats.initialCapital : ℚ) = res.stats.initialCapital →
      res.stats.initialCapital ≠ 0 →
      (∀ y ∈ res.yearlyReturns, endOfYear res.equityCurve y.year ≠ 0) →
      res.stats.initialCapital * chainFactor res.yearlyReturns
          = (res.stats.finalCapital : ℚ)
      ∧ List.Pairwise (· < ·) (res.yearlyReturns.map fun y => y.year) := by
  intro cfg data res hrun hpw hic h0 hnz
  rcases runBacktest_eq_some hrun with ⟨d0, d1, rest, hfd, hres⟩
  subst hres
  set bres := buildResults cfg (d0 :: d1 :: rest) d0 with hbres
  have hyoy : bres.yearlyReturns = calculateYoY bres.equityCurve :=
    buildResults_yearlyReturns cfg _ d0
  have hyears : bres.yearlyReturns.map (fun y => y.year) =
      sortNat ((bres.equityCurve.map fun p => p.date.year).dedup) := by
    rw [hyoy]
    exact yoyAux_years _ _ _
  constructor
  swap
  · rw [hyears]
    exact sortNat_pairwise_lt (List.nodup_dedup _)
  -- the equity curve and its first point
  have hcurve : bres.equityCurve =
      (simStep cfg (initState cfg d0) none d0).2.2 ::
        (runAll cfg (some d0) (simStep cfg (initState cfg d0) none d0).1
          (d1 :: rest)).2.2 := by
    rw [hbres, buildResults_equityCurve]
    rfl
  -- years along the curve are non-decreasing
  have hpwf : List.Pairwise (fun a b : DailyObservation => a.date.ltB b.date = true)
      (filteredData cfg data) := List.Pairwise.filter _ hpw
  rw [hfd] at hpwf
  have hdates : bres.equityCurve.map (fun p => p.date) =
      (d0 :: d1 :: rest).map (fun d => d.date) := by
    rw [hbres, buildResults_equityCurve]
    exact runAll_point_dates cfg _ none _
  have hmonodate : List.Pairwise (fun a b : Date => a.ltB b = true)
      (bres.equityCurve.map fun p => p.date) := by
    rw [hdates]
    exact List.pairwise_map.mpr hpwf
  have hmono : List.Pairwise (fun a b : EquityPoint => a.date.year ≤ b.date.year)
      bres.equityCurve :=
    (List.pairwise_map.mp hmonodate).imp fun hab => Date.year_le_of_ltB hab
  -- the sorted year keys are nonempty
  rcases hsort : sortNat ((bres.equityCurve.map fun p => p.date.year).dedup) with
    _ | ⟨y0, ys⟩
  · exfalso
    have hmem : (simStep cfg (initState cfg d0) none d0).2.2.date.year ∈
        sortNat ((bres.equityCurve.map fun p => p.date.year).dedup) := by
      apply mem_sortNat.mpr
      apply List.mem_dedup.mpr
      apply List.mem_map.mpr
      exact ⟨_, by rw [hcurve]; exact List.mem_cons_self _ _, rfl⟩
    rw [hsort] at hmem
    exact List.not_mem_nil _ hmem
  -- first year start = rounded initial capital
  have hhead := startOfYear_head hcurve hmono hsort
  have hS0 : startOfYear bres.equityCurve y0 = bres.stats.initialCapital := by
    rw [hhead.2]
    have : (simStep cfg (initState cfg d0) none d0).2.2.equity =
        jsRound (initialCapitalOf cfg d0) := first_step_point_equity cfg d0
    rw [this, hbres, buildResults_initialCapital]
    exact hic
  -- last point and last year
  have hne : bres.equityCurve ≠ [] := by rw [hcurve]; exact List.cons_ne_nil _ _
  have hlastp : bres.equityCurve.getLast? = some (bres.equityCurve.getLast hne) :=
    List.getLast?_eq_getLast_of_ne_nil hne
  have hysne : (y0 :: ys) ≠ [] := List.cons_ne_nil _ _
  have hlasty : (y0 :: ys).getLast? = some ((y0 :: ys).getLast hysne) :=
    List.getLast?_eq_getLast_of_ne_nil hysne
  have hlast := endOfYear_getLast hlastp hmono hsort hlasty
  -- nonzero denominators
  have hS0ne : startOfYear bres.equityCurve y0 ≠ 0 := by rw [hS0]; exact h0
  have hnz2 : ∀ y ∈ (y0 :: ys).dropLast, endOfYear bres.equityCurve y ≠ 0 := by
    intro y hy
    have hy2 : y ∈ (y0 :: ys) := List.dropLast_subset _ hy
    have : y ∈ bres.yearlyReturns.map fun r => r.year := by
      rw [hyears, hsort]; exact hy2
    rcases List.mem_map.mp this with ⟨r, hr, hry⟩
    rw [← hry]
    exact hnz r hr
  -- chain the returns
  have hchain := calculateYoY_chain bres.equityCurve y0
    ((y0 :: ys).getLast hysne) ys hsort hlasty hS0ne hnz2
  rw [hyoy, hchain, hS0, hlast.2]
  have hfin : bres.stats.finalCapital = (bres.equityCurve.getLast hne).equity :=
    buildResults_finalCapital cfg _ d0 hlastp
  rw [hfin]
  exact mul_div_cancel₀ _ h0

/-- C8 witness: chaining on the flat two-day run. -/
theorem yearly_return_chaining_witness :
    flatRes.stats.initialCapital * chainFactor flatRes.yearlyReturns
        = (flatRes.stats.finalCapital : ℚ)
    ∧ List.Pairwise (· < ·) (flatRes.yearlyReturns.map fun y => y.year) := by
  apply yearly_return_chaining specCfg flatData flatRes
  · norm_num [runBacktest, filteredData, specCfg, flatData, flatObs1, flatObs2, flatRes,
      buildResults, runAll, simStep, rolloverStep, compoundingStep, mtmEquity,
      initialCapitalOf, drawdownPercentCalc, jsRound, jsToFixed, CONTRACT_MULTIPLIER,
      calculateYoY, yoyAux, sortNat, insertNat, startOfYear, endOfYear, maxOf,
      Date.leB, Date.ltB]
  · rw [show flatData = [flatObs1, flatObs2] from rfl]
    refine List.Pairwise.cons ?_ (List.pairwise_singleton _ _)
    intro b hb
    rw [List.mem_singleton] at hb
    subst hb
    decide
  · norm_num [flatRes, jsRound]
  · norm_num [flatRes]
  · intro y hy
    rw [show flatRes.yearlyReturns = [{ year := 2020, retExact := 0, ret := 0 }] from rfl,
      List.mem_singleton] at hy
    subst hy
    norm_num [endOfYear, flatRes]
